import Mathlib

/-!
Verification of the TaskMaster task-store core: the reducer of
src/unnamed/part_000 (React TaskContext), its derived views
(getFilteredTasks, getStats), its persistence effects, and the vanilla
counterparts in src/session-2-vanilla-js/app.js.

Modelling conventions, chosen to mirror the JavaScript values:
* A task record is a structure.  The field completedAt is sometimes a
  string, sometimes null, and sometimes absent in the source, so it is
  modelled as Option (Option String): none is an absent key, some none
  is an explicit null, some (some s) is a timestamp string s.
* dueDate is Option Nat: none models every falsy due date (absent, null
  or the empty string, all of which the source treats alike via
  !task.dueDate), and some v models a date whose chronological numeric
  value (the value of new Date(d)) is v.
* Impure reads made inside the code (Date.now(), Math.random(),
  new Date().toISOString()) are passed in explicitly: the action or
  function carries the value the oracle produced at that call site.
* Array.prototype.sort with a comparator cmp is modelled as the stable
  merge sort List.mergeSort with the Boolean relation cmp a b <= 0: a
  stable sort keeps the left element exactly when the comparator does
  not order it after the right one, which is the ECMAScript-mandated
  behaviour for consistent comparators and matches the stable merge
  sorts of the mainstream engines elsewhere.
-/

namespace TaskMaster

/-- A task record, as stored in the tasks array of the store. -/
structure Task where
  id : Nat
  title : String
  description : String
  priority : String
  status : String
  dueDate : Option Nat
  createdAt : Option String
  completedAt : Option (Option String)
  deriving DecidableEq

/-- The filters object of the store. -/
structure Filters where
  status : String
  priority : String
  searchTerm : String
  deriving DecidableEq

/-- The whole store managed by taskReducer. -/
structure AppStateR where
  tasks : List Task
  filters : Filters
  sortBy : String
  deriving DecidableEq

/-- The initialState value of src/unnamed/part_000. -/
def initialState : AppStateR :=
  { tasks := []
  , filters := { status := "all", priority := "all", searchTerm := "" }
  , sortBy := "date" }

/-- The payload of an ADD_TASK action.  The spread in the reducer copies
every field of the payload, so a draft may carry its own id, status,
createdAt or completedAt; fields a caller did not supply are none. -/
structure Draft where
  title : String
  description : String
  priority : String
  dueDate : Option Nat
  id : Option Nat
  status : Option String
  createdAt : Option String
  completedAt : Option (Option String)
  deriving DecidableEq

/-- The updates object of an UPDATE_TASK action: each field is none when
the patch does not mention it.  A patch that mentions completedAt always
makes the key present (null or a string), hence Option (Option String). -/
structure Patch where
  id : Option Nat
  title : Option String
  description : Option String
  priority : Option String
  status : Option String
  dueDate : Option (Option Nat)
  createdAt : Option (Option String)
  completedAt : Option (Option (Option String))
  deriving DecidableEq

/-- The object spread of UPDATE_TASK: every field present in the patch
overwrites the corresponding field of the task. -/
def applyPatch (t : Task) (p : Patch) : Task :=
  { id := p.id.getD t.id
  , title := p.title.getD t.title
  , description := p.description.getD t.description
  , priority := p.priority.getD t.priority
  , status := p.status.getD t.status
  , dueDate := p.dueDate.getD t.dueDate
  , createdAt := p.createdAt.getD t.createdAt
  , completedAt := p.completedAt.getD t.completedAt }

/-- One action dispatched to taskReducer.  Oracle values read inside the
reducer are carried on the constructor: add carries the value of
Date.now() + Math.floor(Math.random() * 1000), toggle carries the value
of new Date().toISOString().  The constructor other ty models any action
object whose type string ty is none of the eight recognized constants
and therefore falls to the default branch of the switch. -/
inductive Action where
  | setTasks (payload : List Task)
  | add (payload : Draft) (newId : Nat)
  | update (id : Nat) (updates : Patch)
  | delete (id : Nat)
  | toggle (id : Nat) (now : String)
  | setFilter (filterType : String) (value : String)
  | setSort (payload : String)
  | clearCompleted
  | other (ty : String)
  deriving DecidableEq

/-- The record built by the ADD_TASK branch: the payload spread first,
then id and status overwritten.  createdAt and completedAt are whatever
the draft carried (the reducer itself sets neither). -/
def addedTask (d : Draft) (newId : Nat) : Task :=
  { id := newId
  , title := d.title
  , description := d.description
  , priority := d.priority
  , status := "pending"
  , dueDate := d.dueDate
  , createdAt := d.createdAt
  , completedAt := d.completedAt }

/-- The map body of the TOGGLE_TASK branch, applied to the matching task. -/
def toggledTask (t : Task) (now : String) : Task :=
  { t with
    status := if t.status == "completed" then "pending" else "completed"
  , completedAt := if t.status == "completed" then some none else some (some now) }

/-- The reducer of src/unnamed/part_000, lines 39-109, translated case
by case.  SET_FILTER writes through a computed key: a filterType other
than the three known ones would only add an extra never-read property to
the filters object, so the three modelled fields are left unchanged. -/
def taskReducer (state : AppStateR) (action : Action) : AppStateR :=
  match action with
  | .setTasks payload => { state with tasks := payload }
  | .add payload newId =>
      { state with tasks := state.tasks ++ [addedTask payload newId] }
  | .update id updates =>
      { state with tasks :=
          state.tasks.map fun task =>
            if task.id == id then applyPatch task updates else task }
  | .delete id =>
      { state with tasks := state.tasks.filter fun task => !(task.id == id) }
  | .toggle id now =>
      { state with tasks :=
          state.tasks.map fun task =>
            if task.id == id then toggledTask task now else task }
  | .setFilter filterType value =>
      { state with filters :=
          if filterType == "status" then { state.filters with status := value }
          else if filterType == "priority" then { state.filters with priority := value }
          else if filterType == "searchTerm" then { state.filters with searchTerm := value }
          else state.filters }
  | .setSort payload => { state with sortBy := payload }
  | .clearCompleted =>
      { state with tasks := state.tasks.filter fun task => !(task.status == "completed") }
  | .other _ => state

/-- The sample data of getSampleTasks (identical in part_000 and app.js).
Due dates are written as their chronological numeric value yyyymmdd. -/
def getSampleTasks : List Task :=
  [ { id := 1
    , title := "Fix authentication bug in login flow"
    , description := "Users are experiencing issues logging in with OAuth providers. Need to debug the callback handling."
    , priority := "high", status := "pending", dueDate := some 20241225
    , createdAt := some "2024-12-20T00:00:00.000Z", completedAt := none }
  , { id := 2
    , title := "Update API documentation"
    , description := "Add examples for the new endpoints and update the authentication section."
    , priority := "medium", status := "pending", dueDate := some 20241228
    , createdAt := some "2024-12-21T00:00:00.000Z", completedAt := none }
  , { id := 3
    , title := "Refactor user service tests"
    , description := "Clean up test code and add missing edge cases for better coverage."
    , priority := "low", status := "pending", dueDate := some 20250105
    , createdAt := some "2024-12-22T00:00:00.000Z", completedAt := none }
  , { id := 4
    , title := "Implement user profile page"
    , description := "Create responsive profile page with edit functionality and avatar upload."
    , priority := "high", status := "completed", dueDate := some 20241220
    , createdAt := some "2024-12-15T00:00:00.000Z"
    , completedAt := some (some "2024-12-20T00:00:00.000Z") } ]

/-- Decides whether the character list n occurs at the start of h. -/
def charsLead : List Char → List Char → Bool
  | [], _ => true
  | _ :: _, [] => false
  | c :: cs, d :: ds => c == d && charsLead cs ds

/-- Decides whether the character list n occurs contiguously inside h. -/
def charsInside (n : List Char) : List Char → Bool
  | [] => n.isEmpty
  | c :: cs => charsLead n (c :: cs) || charsInside n cs

/-- Model of String.prototype.includes: hay.includes(needle). -/
def jsIncludes (hay needle : String) : Bool :=
  charsInside needle.toList hay.toList

/-- The priorityOrder lookup table.  A priority outside the table gives
undefined in the source, so the lookup is partial here. -/
def priorityOrder (p : String) : Option Int :=
  if p == "high" then some 3
  else if p == "medium" then some 2
  else if p == "low" then some 1
  else none

/-- The priority comparator priorityOrder[b.priority] - priorityOrder[a.priority].
A missing table entry makes the subtraction NaN, which Array.prototype.sort
treats as 0. -/
def cmpPriority (a b : Task) : Int :=
  match priorityOrder b.priority, priorityOrder a.priority with
  | some vb, some va => vb - va
  | _, _ => 0

/-- The title comparator a.title.localeCompare(b.title), modelled by the
string order of Lean (the claims never depend on the locale order). -/
def cmpTitle (a b : Task) : Int :=
  if a.title < b.title then -1 else if b.title < a.title then 1 else 0

/-- The due-date comparator of the date branch:
if (!a.dueDate) return 1; if (!b.dueDate) return -1; return dateA - dateB. -/
def cmpDate (a b : Task) : Int :=
  match a.dueDate with
  | none => 1
  | some va =>
    match b.dueDate with
    | none => -1
    | some vb => (va : Int) - (vb : Int)

/-- Model of Array.prototype.sort with comparator cmp: the stable merge
sort driven by the relation cmp a b <= 0 (keep the left element exactly
when the comparator does not place it after the right one). -/
def jsSortBy (cmp : Task → Task → Int) (l : List Task) : List Task :=
  List.mergeSort l fun a b => cmp a b ≤ 0

/-- The derived view getFilteredTasks of part_000 (lines 190-231): the
status, priority and search filters applied in order, then the sort
selected by sortBy (the date branch doubles as the default branch).
sortTasks/getFilteredTasks of app.js compute the same function. -/
def getFilteredTasks (s : AppStateR) : List Task :=
  let r1 := if s.filters.status != "all"
    then s.tasks.filter (fun t => t.status == s.filters.status) else s.tasks
  let r2 := if s.filters.priority != "all"
    then r1.filter (fun t => t.priority == s.filters.priority) else r1
  let r3 := if s.filters.searchTerm != ""
    then
      let search := s.filters.searchTerm.toLower
      r2.filter (fun t =>
        jsIncludes t.title.toLower search || jsIncludes t.description.toLower search)
    else r2
  if s.sortBy == "priority" then jsSortBy cmpPriority r3
  else if s.sortBy == "title" then jsSortBy cmpTitle r3
  else jsSortBy cmpDate r3

/-- The accumulator of the reduce inside getStats. -/
structure StatsAcc where
  total : Nat
  inProgress : Nat
  completed : Nat
  deriving DecidableEq

/-- The statistics object returned by getStats. -/
structure Stats where
  total : Nat
  inProgress : Nat
  completed : Nat
  completionRate : Nat
  deriving DecidableEq

/-- The getStats computed value of part_000 (lines 233-246), identical
to calculateStats of app.js: one reduce pass, then the completion rate.
Math.round((completed / total) * 100) equals floor(100c/t + 1/2), i.e.
(200c + t) / (2t) in exact integer arithmetic, which the model uses. -/
def getStats (tasks : List Task) : Stats :=
  let acc := tasks.foldl
    (fun (acc : StatsAcc) t =>
      if t.status == "completed"
      then { acc with total := acc.total + 1, completed := acc.completed + 1 }
      else { acc with total := acc.total + 1, inProgress := acc.inProgress + 1 })
    ({ total := 0, inProgress := 0, completed := 0 } : StatsAcc)
  { total := acc.total, inProgress := acc.inProgress, completed := acc.completed
  , completionRate :=
      if acc.total > 0 then (200 * acc.completed + acc.total) / (2 * acc.total) else 0 }

/-- The storage slot taskmaster-react-tasks, modelled as the parsed list
it holds (serialization is a faithful round trip for the claims here):
none when the key is absent. -/
def StorageSlot : Type := Option (List Task)

/-- The save useEffect of TaskProvider (part_000 lines 167-171): writes
the task list to the slot only when it is non-empty, otherwise leaves
the slot as it was. -/
def saveTasksEffect (tasks : List Task) (slot : Option (List Task)) :
    Option (List Task) :=
  if tasks.length > 0 then some tasks else slot

/-- The load useEffect of TaskProvider (part_000 lines 157-164): the
task list the mount effect dispatches through SET_TASKS, namely the
stored list when the slot is occupied and the sample data otherwise. -/
def loadedTasks (slot : Option (List Task)) : List Task :=
  match slot with
  | some stored => stored
  | none => getSampleTasks

/-- The record built by createTask of app.js (lines 119-130): the
generated id Date.now() is spread BEFORE taskData, so a draft carrying
an id overrides it; status and createdAt are spread after and win. -/
def createdTask (d : Draft) (now : Nat) (nowISO : String) : Task :=
  { id := d.id.getD now
  , title := d.title
  , description := d.description
  , priority := d.priority
  , status := "pending"
  , dueDate := d.dueDate
  , createdAt := some nowISO
  , completedAt := d.completedAt }

/-- createTask of app.js with its persistence side effect: the new task
is pushed into the in-memory array, then saveTasks() runs.  saveOk is
the outcome of localStorage.setItem; when it throws (saveOk = false) the
exception leaves createTask uncaught, modelled by Except.error, but the
push onto the in-memory array has already happened. -/
def createTask (d : Draft) (now : Nat) (nowISO : String) (saveOk : Bool)
    (tasks : List Task) : List Task × Except Unit Task :=
  let newTask := createdTask d now nowISO
  let pushed := tasks ++ [newTask]
  (pushed, if saveOk then .ok newTask else .error ())

/-- The eight recognized action type constants of ACTION_TYPES. -/
def recognizedActionTypes : List String :=
  [ "SET_TASKS", "ADD_TASK", "UPDATE_TASK", "DELETE_TASK"
  , "TOGGLE_TASK", "SET_FILTER", "SET_SORT", "CLEAR_COMPLETED" ]

/-- C10: for every store and every action value whose type string is not
one of the eight recognized action kinds, the reducer raises no error
(it is a total function here) and returns the store unchanged, with the
same task sequence, filters and sort criterion. -/
theorem c10_unrecognized_action_passthrough (s : AppStateR) (ty : String)
    (h : ty ∉ recognizedActionTypes) :
    taskReducer s (.other ty) = s := rfl

/-- Witness for C10 at the concrete type string BOGUS. -/
theorem c10_unrecognized_action_passthrough_witness :
    "BOGUS" ∉ recognizedActionTypes ∧
      taskReducer initialState (.other "BOGUS") = initialState :=
  ⟨by decide, c10_unrecognized_action_passthrough initialState "BOGUS" (by decide)⟩

/-- C3 counterexample: the claim says the added record has createdAt set
to the current time and completedAt absent regardless of the fields of
the draft.  On a draft that carries completedAt and no createdAt, the
ADD_TASK branch spreads both through: the sole record of the resulting
store has completedAt present (and non-null) and createdAt absent. -/
theorem c3_add_counterexample :
    (taskReducer initialState (.add
        { title := "Buy milk", description := "", priority := "low"
        , dueDate := none, id := none, status := none, createdAt := none
        , completedAt := some (some "2024-01-01T00:00:00.000Z") } 42)).tasks.map
        Task.completedAt = [some (some "2024-01-01T00:00:00.000Z")] ∧
    (taskReducer initialState (.add
        { title := "Buy milk", description := "", priority := "low"
        , dueDate := none, id := none, status := none, createdAt := none
        , completedAt := some (some "2024-01-01T00:00:00.000Z") } 42)).tasks.map
        Task.createdAt = [none] := by decide

/-- C3 as amended: for every store and draft, ADD appends exactly one
record at the end of the task sequence; that record carries the id the
generator produced and status pending, its completedAt is absent
whenever the draft did not carry one, and its createdAt is copied from
the draft (the reducer itself does not set it; callers supply it). -/
theorem c3_add_appends_one (s : AppStateR) (d : Draft) (newId : Nat)
    (h : d.completedAt = none) :
    (taskReducer s (.add d newId)).tasks = s.tasks ++ [addedTask d newId] ∧
    (addedTask d newId).status = "pending" ∧
    (addedTask d newId).id = newId ∧
    (addedTask d newId).completedAt = none ∧
    (addedTask d newId).createdAt = d.createdAt := by
  refine ⟨rfl, rfl, rfl, ?_, rfl⟩
  simp [addedTask, h]

/-- Witness for C3 on a concrete empty store and plain draft. -/
theorem c3_add_appends_one_witness :
    ({ title := "Buy milk", description := "", priority := "low", dueDate := none
     , id := none, status := none, createdAt := some "2025-01-01T00:00:00.000Z"
     , completedAt := none } : Draft).completedAt = none ∧
    ((taskReducer initialState (.add
        { title := "Buy milk", description := "", priority := "low", dueDate := none
        , id := none, status := none, createdAt := some "2025-01-01T00:00:00.000Z"
        , completedAt := none } 7)).tasks =
      initialState.tasks ++ [addedTask
        { title := "Buy milk", description := "", priority := "low", dueDate := none
        , id := none, status := none, createdAt := some "2025-01-01T00:00:00.000Z"
        , completedAt := none } 7] ∧
     (addedTask
        { title := "Buy milk", description := "", priority := "low", dueDate := none
        , id := none, status := none, createdAt := some "2025-01-01T00:00:00.000Z"
        , completedAt := none } 7).status = "pending" ∧
     (addedTask
        { title := "Buy milk", description := "", priority := "low", dueDate := none
        , id := none, status := none, createdAt := some "2025-01-01T00:00:00.000Z"
        , completedAt := none } 7).id = 7 ∧
     (addedTask
        { title := "Buy milk", description := "", priority := "low", dueDate := none
        , id := none, status := none, createdAt := some "2025-01-01T00:00:00.000Z"
        , completedAt := none } 7).completedAt = none ∧
     (addedTask
        { title := "Buy milk", description := "", priority := "low", dueDate := none
        , id := none, status := none, createdAt := some "2025-01-01T00:00:00.000Z"
        , completedAt := none } 7).createdAt =
      ({ title := "Buy milk", description := "", priority := "low", dueDate := none
       , id := none, status := none, createdAt := some "2025-01-01T00:00:00.000Z"
       , completedAt := none } : Draft).createdAt) :=
  ⟨rfl, c3_add_appends_one initialState _ 7 rfl⟩

/-- C5 counterexample: the claim says two TOGGLEs return the status and
completedAt fields of the record to exactly their prior values.  On a
completed record whose completedAt is the string A, toggling twice at
times B1 and B2 leaves status completed but replaces completedAt with
the second toggle time B2, not the prior value A. -/
theorem c5_toggle_counterexample :
    (taskReducer (taskReducer
        { tasks := [{ id := 1, title := "t", description := "d", priority := "low"
                    , status := "completed", dueDate := none, createdAt := none
                    , completedAt := some (some "A") }]
        , filters := { status := "all", priority := "all", searchTerm := "" }
        , sortBy := "date" }
        (.toggle 1 "B1")) (.toggle 1 "B2")).tasks.map Task.completedAt
      = [some (some "B2")] ∧
    (some (some "B2") : Option (Option String)) ≠ some (some "A") ∧
    (taskReducer (taskReducer
        { tasks := [{ id := 1, title := "t", description := "d", priority := "low"
                    , status := "completed", dueDate := none, createdAt := none
                    , completedAt := some (some "A") }]
        , filters := { status := "all", priority := "all", searchTerm := "" }
        , sortBy := "date" }
        (.toggle 1 "B1")) (.toggle 1 "B2")).tasks.map Task.status
      = ["completed"] := by decide

/-- C5 as amended: TOGGLE applied twice maps the matching record to a
record with the same status whenever the status was pending or
completed, but completedAt is only restored up to being set: a record
that was completed gets the second toggle time as a fresh completedAt,
and a record that was not completed ends with status pending and
completedAt null (even when it started with completedAt absent).  A
single TOGGLE on a pending record sets status completed with a
non-absent completedAt, and the second TOGGLE restores status pending
and clears completedAt to null. -/
theorem toggledTask_id (u : Task) (n : String) : (toggledTask u n).id = u.id := rfl

theorem toggledTask_toggledTask (u : Task) (n1 n2 : String) :
    toggledTask (toggledTask u n1) n2 =
      if u.status == "completed" then { u with completedAt := some (some n2) }
      else { u with status := "pending", completedAt := some none } := by
  by_cases h : u.status == "completed"
  · have h' : u.status = "completed" := by simpa using h
    simp [toggledTask, h, h']
  · simp [toggledTask, h]

theorem c5_toggle_twice (s : AppStateR) (x : Nat) (n1 n2 : String)
    (t : Task) (ht : t.status = "pending") :
    (taskReducer (taskReducer s (.toggle x n1)) (.toggle x n2)).tasks
      = s.tasks.map (fun u =>
          if u.id == x then
            if u.status == "completed" then { u with completedAt := some (some n2) }
            else { u with status := "pending", completedAt := some none }
          else u) ∧
    toggledTask t n1 = { t with status := "completed", completedAt := some (some n1) } ∧
    toggledTask (toggledTask t n1) n2 = { t with status := "pending", completedAt := some none } := by
  refine ⟨?_, ?_, ?_⟩
  · simp only [taskReducer, List.map_map]
    refine List.map_congr_left fun u _ => ?_
    by_cases hid : u.id == x
    · simp only [Function.comp_apply, hid, if_pos, toggledTask_id]
      simpa [hid] using toggledTask_toggledTask u n1 n2
    · have hid' : ¬ u.id = x := by simpa using hid
      simp [Function.comp_apply, hid']
  · simp [toggledTask, ht]
  · rw [toggledTask_toggledTask]
    simp [ht]

/-- Witness for C5 on the sample store and its pending record 1. -/
theorem c5_toggle_twice_witness :
    (({ id := 1, title := "t", description := "d", priority := "low"
      , status := "pending", dueDate := none, createdAt := none
      , completedAt := none } : Task).status = "pending") ∧
    ((taskReducer (taskReducer
        { tasks := getSampleTasks
        , filters := { status := "all", priority := "all", searchTerm := "" }
        , sortBy := "date" } (.toggle 1 "B1")) (.toggle 1 "B2")).tasks
      = getSampleTasks.map (fun u =>
          if u.id == 1 then
            if u.status == "completed" then { u with completedAt := some (some "B2") }
            else { u with status := "pending", completedAt := some none }
          else u) ∧
     toggledTask
        { id := 1, title := "t", description := "d", priority := "low"
        , status := "pending", dueDate := none, createdAt := none
        , completedAt := none } "B1"
      = { id := 1, title := "t", description := "d", priority := "low"
        , status := "completed", dueDate := none, createdAt := none
        , completedAt := some (some "B1") } ∧
     toggledTask (toggledTask
        { id := 1, title := "t", description := "d", priority := "low"
        , status := "pending", dueDate := none, createdAt := none
        , completedAt := none } "B1") "B2"
      = { id := 1, title := "t", description := "d", priority := "low"
        , status := "pending", dueDate := none, createdAt := none
        , completedAt := some none }) :=
  ⟨rfl, c5_toggle_twice
    { tasks := getSampleTasks
    , filters := { status := "all", priority := "all", searchTerm := "" }
    , sortBy := "date" } 1 "B1" "B2"
    { id := 1, title := "t", description := "d", priority := "low"
    , status := "pending", dueDate := none, createdAt := none
    , completedAt := none } rfl⟩

/-- C2: two ADD_TASK dispatches in the same millisecond for which
Date.now() + Math.floor(Math.random() * 1000) evaluates to the same
number both times produce two records with the same id.  The count part
of the claim does hold on this input: two ADDs grow the store by two. -/
theorem c2_duplicate_id_on_collision :
    ((List.foldl taskReducer initialState
      [ .add { title := "a", description := "", priority := "low", dueDate := none
             , id := none, status := none, createdAt := none, completedAt := none } 1005
      , .add { title := "b", description := "", priority := "low", dueDate := none
             , id := none, status := none, createdAt := none, completedAt := none } 1005
      ]).tasks.map Task.id = [1005, 1005]) ∧
    ((List.foldl taskReducer initialState
      [ .add { title := "a", description := "", priority := "low", dueDate := none
             , id := none, status := none, createdAt := none, completedAt := none } 1005
      , .add { title := "b", description := "", priority := "low", dueDate := none
             , id := none, status := none, createdAt := none, completedAt := none } 1005
      ]).tasks.length = 0 + 2) ∧
    ¬ ([1005, 1005] : List Nat).Nodup := by
  refine ⟨by decide, by decide, by decide⟩

/-- C6: when the task sequence of the state is empty, the save effect of
TaskProvider leaves the storage slot unchanged (it only writes when the
list is non-empty), so a startup that finds a previously persisted
non-empty list still rehydrates that list, not the empty one. -/
theorem c6_empty_store_not_persisted (s : AppStateR)
    (slot : Option (List Task)) (prev : List Task) (h : s.tasks = []) :
    saveTasksEffect s.tasks slot = slot ∧
    loadedTasks (saveTasksEffect s.tasks (some prev)) = prev := by
  rw [h]
  exact ⟨rfl, rfl⟩

/-- Witness for C6: deleting the last remaining task empties the store,
and the slot holding the sample list survives the save effect. -/
theorem c6_empty_store_not_persisted_witness :
    (taskReducer
      { tasks := [{ id := 9, title := "t", description := "d", priority := "low"
                  , status := "pending", dueDate := none, createdAt := none
                  , completedAt := none }]
      , filters := { status := "all", priority := "all", searchTerm := "" }
      , sortBy := "date" } (.delete 9)).tasks = [] ∧
    (saveTasksEffect (taskReducer
      { tasks := [{ id := 9, title := "t", description := "d", priority := "low"
                  , status := "pending", dueDate := none, createdAt := none
                  , completedAt := none }]
      , filters := { status := "all", priority := "all", searchTerm := "" }
      , sortBy := "date" } (.delete 9)).tasks (some getSampleTasks) = some getSampleTasks ∧
    loadedTasks (saveTasksEffect (taskReducer
      { tasks := [{ id := 9, title := "t", description := "d", priority := "low"
                  , status := "pending", dueDate := none, createdAt := none
                  , completedAt := none }]
      , filters := { status := "all", priority := "all", searchTerm := "" }
      , sortBy := "date" } (.delete 9)).tasks (some getSampleTasks)) = getSampleTasks) :=
  ⟨by decide, c6_empty_store_not_persisted _ (some getSampleTasks) getSampleTasks (by decide)⟩

/-- C7: createTask pushes the new record into the in-memory array before
saveTasks runs, so a storage failure neither rolls the mutation back nor
prevents it; but the setItem exception leaves createTask uncaught, so
the mutation path does crash (the Except.error outcome), contrary to the
claim that it must not. -/
theorem c7_save_failure_keeps_mutation :
    createTask
      { title := "x", description := "", priority := "low", dueDate := none
      , id := none, status := none, createdAt := none, completedAt := none }
      1000 "2025-01-01T00:00:00.000Z" false []
    = ([createdTask
        { title := "x", description := "", priority := "low", dueDate := none
        , id := none, status := none, createdAt := none, completedAt := none }
        1000 "2025-01-01T00:00:00.000Z"], .error ()) ∧
    (createdTask
      { title := "x", description := "", priority := "low", dueDate := none
      , id := none, status := none, createdAt := none, completedAt := none }
      1000 "2025-01-01T00:00:00.000Z").title = "x" := ⟨rfl, rfl⟩

/-- Whether a completedAt value is present and non-null. -/
def completedAtSet : Option (Option String) → Bool
  | some (some _) => true
  | _ => false

/-- The record invariant of the spec: status is completed exactly when
completedAt is present and non-null. -/
def taskOk (t : Task) : Bool :=
  (t.status == "completed") == completedAtSet t.completedAt

/-- Every record of the store satisfies the record invariant. -/
def storeOk (s : AppStateR) : Bool := s.tasks.all taskOk

/-- The actions under which the reducer does preserve the invariant:
SET_TASKS with an invariant-satisfying payload, ADD_TASK with a draft
that does not itself carry a set completedAt, UPDATE_TASK with a patch
touching neither status nor completedAt, and every other action
unconditionally. -/
def actionSafe : Action → Bool
  | .setTasks payload => payload.all taskOk
  | .add d _ => !completedAtSet d.completedAt
  | .update _ p => p.status.isNone && p.completedAt.isNone
  | _ => true

theorem taskOk_toggledTask (t : Task) (now : String) :
    taskOk (toggledTask t now) = true := by
  by_cases h : t.status == "completed" <;>
    simp [taskOk, toggledTask, completedAtSet, h]

theorem storeOk_taskReducer (s : AppStateR) (a : Action)
    (hs : storeOk s = true) (ha : actionSafe a = true) :
    storeOk (taskReducer s a) = true := by
  rw [storeOk, List.all_eq_true] at hs
  cases a with
  | setTasks payload => simpa [storeOk, taskReducer, actionSafe] using ha
  | add d newId =>
      rw [actionSafe, Bool.not_eq_true'] at ha
      rw [storeOk, taskReducer, List.all_eq_true]
      intro t ht
      rcases List.mem_append.1 ht with ht | ht
      · exact hs t ht
      · rcases List.mem_singleton.1 ht with rfl
        simp [taskOk, addedTask, ha]
  | update id p =>
      rw [actionSafe, Bool.and_eq_true, Option.isNone_iff_eq_none,
        Option.isNone_iff_eq_none] at ha
      rw [storeOk, taskReducer, List.all_eq_true]
      intro t' ht'
      rcases List.mem_map.1 ht' with ⟨t, ht, rfl⟩
      by_cases hid : t.id == id
      · simp only [hid, if_pos]
        have : taskOk (applyPatch t p) = taskOk t := by
          simp [taskOk, applyPatch, ha.1, ha.2]
        rw [this]
        exact hs t ht
      · simp only [hid]
        simpa [hid] using hs t ht
  | delete id =>
      rw [storeOk, taskReducer, List.all_eq_true]
      intro t ht
      exact hs t (List.mem_filter.1 ht).1
  | toggle id now =>
      rw [storeOk, taskReducer, List.all_eq_true]
      intro t' ht'
      rcases List.mem_map.1 ht' with ⟨t, ht, rfl⟩
      by_cases hid : t.id == id
      · simp only [hid, if_pos]
        exact taskOk_toggledTask t now
      · simpa [hid] using hs t ht
  | setFilter filterType value =>
      rw [storeOk, taskReducer, List.all_eq_true]
      exact fun t ht => hs t ht
  | setSort payload => rw [storeOk, taskReducer, List.all_eq_true]; exact fun t ht => hs t ht
  | clearCompleted =>
      rw [storeOk, taskReducer, List.all_eq_true]
      intro t ht
      exact hs t (List.mem_filter.1 ht).1
  | other ty => rw [storeOk, taskReducer, List.all_eq_true]; exact fun t ht => hs t ht

theorem storeOk_foldl (acts : List Action) (s : AppStateR)
    (hs : storeOk s = true) (h : acts.all actionSafe = true) :
    storeOk (List.foldl taskReducer s acts) = true := by
  induction acts generalizing s with
  | nil => simpa using hs
  | cons a rest ih =>
      rw [List.all_cons, Bool.and_eq_true] at h
      exact ih (taskReducer s a) (storeOk_taskReducer s a hs h.1) h.2

/-- C1 counterexample: the claim says UPDATE preserves the invariant for
every patch.  Starting from the empty store, ADD a plain pending draft
and then UPDATE it with the patch that sets status completed and nothing
else: the reached store holds a record with status completed and
completedAt absent, violating the invariant. -/
theorem c1_update_counterexample :
    storeOk (List.foldl taskReducer initialState
      [ .add { title := "t", description := "d", priority := "low", dueDate := none
             , id := none, status := none, createdAt := none, completedAt := none } 1
      , .update 1 { id := none, title := none, description := none, priority := none
                  , status := some "completed", dueDate := none, createdAt := none
                  , completedAt := none } ]) = false := by decide

/-- C1 as amended: every store reached from the empty store or the
sample store by a sequence of actions that is invariant-safe (TOGGLE,
DELETE, SET_FILTER, SET_SORT, CLEAR_COMPLETED and unrecognized actions
unconditionally; ADD for drafts without a set completedAt; UPDATE only
for patches touching neither status nor completedAt; SET_TASKS for
invariant-satisfying payloads) satisfies: every record has status
completed exactly when its completedAt is present and non-null.  UPDATE
with an arbitrary patch does not preserve the invariant. -/
theorem c1_completedAt_invariant (s0 : AppStateR) (acts : List Action)
    (h0 : s0 = initialState ∨ s0 = { initialState with tasks := getSampleTasks })
    (hacts : acts.all actionSafe = true) :
    storeOk (List.foldl taskReducer s0 acts) = true := by
  have hs : storeOk s0 = true := by rcases h0 with h | h <;> subst h <;> decide
  exact storeOk_foldl acts s0 hs hacts

/-- Witness for C1: a safe sequence of one ADD, one TOGGLE, one UPDATE
of the title, one DELETE and one CLEAR_COMPLETED from the empty store. -/
theorem c1_completedAt_invariant_witness :
    (([ .add { title := "t", description := "d", priority := "low", dueDate := none
             , id := none, status := none, createdAt := none, completedAt := none } 5
      , .toggle 5 "2025-01-02T00:00:00.000Z"
      , .update 5 { id := none, title := some "t2", description := none, priority := none
                  , status := none, dueDate := none, createdAt := none, completedAt := none }
      , .delete 1
      , .clearCompleted ] : List Action).all actionSafe = true) ∧
    storeOk (List.foldl taskReducer initialState
      [ .add { title := "t", description := "d", priority := "low", dueDate := none
             , id := none, status := none, createdAt := none, completedAt := none } 5
      , .toggle 5 "2025-01-02T00:00:00.000Z"
      , .update 5 { id := none, title := some "t2", description := none, priority := none
                  , status := none, dueDate := none, createdAt := none, completedAt := none }
      , .delete 1
      , .clearCompleted ]) = true :=
  ⟨by decide, c1_completedAt_invariant initialState _ (Or.inl rfl) (by decide)⟩

theorem statsStep_foldl (tasks : List Task) (acc : StatsAcc) :
    List.foldl
      (fun (acc : StatsAcc) t =>
        if t.status == "completed"
        then { acc with total := acc.total + 1, completed := acc.completed + 1 }
        else { acc with total := acc.total + 1, inProgress := acc.inProgress + 1 })
      acc tasks
    = { total := acc.total + tasks.length
      , inProgress := acc.inProgress + (tasks.countP fun t => !(t.status == "completed"))
      , completed := acc.completed + (tasks.countP fun t => t.status == "completed") } := by
  induction tasks generalizing acc with
  | nil => simp
  | cons t rest ih =>
      rw [List.foldl_cons]
      by_cases h : t.status == "completed"
      · rw [if_pos h, ih]
        have h1 : List.countP (fun u => u.status == "completed") (t :: rest)
            = List.countP (fun u => u.status == "completed") rest + 1 := by
          rw [List.countP_cons]; simp [h]
        have h2 : List.countP (fun u => !(u.status == "completed")) (t :: rest)
            = List.countP (fun u => !(u.status == "completed")) rest := by
          rw [List.countP_cons]; simp [h]
        rw [h1, h2, List.length_cons]
        simp only [StatsAcc.mk.injEq]
        exact ⟨by omega, trivial, by omega⟩
      · rw [if_neg h, ih]
        have h1 : List.countP (fun u => u.status == "completed") (t :: rest)
            = List.countP (fun u => u.status == "completed") rest := by
          rw [List.countP_cons]; simp [h]
        have h2 : List.countP (fun u => !(u.status == "completed")) (t :: rest)
            = List.countP (fun u => !(u.status == "completed")) rest + 1 := by
          rw [List.countP_cons]; simp [h]
        rw [h1, h2, List.length_cons]
        simp only [StatsAcc.mk.injEq]
        exact ⟨by omega, by omega, trivial⟩

theorem countP_not_completed (tasks : List Task) :
    (tasks.countP fun t => !(t.status == "completed"))
      = tasks.length - (tasks.countP fun t => t.status == "completed") := by
  induction tasks with
  | nil => rfl
  | cons t rest ih =>
      have hle := List.countP_le_length (p := fun u => u.status == "completed") (l := rest)
      rw [List.countP_cons, List.countP_cons, List.length_cons]
      by_cases h : t.status == "completed" <;> simp [h, ih] <;> omega

/-- C8: the statistics aggregate of the full task sequence satisfies
total = length, completed = the number of completed records,
inProgress = total - completed, and completionRate =
round(100 * completed / total) computed as (200c + t) / (2t) in integer
arithmetic, 0 when total = 0; on the empty sequence it is all zeros, and
the derived view of the empty sequence is empty for every filter
configuration and sort criterion. -/
theorem c8_stats_aggregate (tasks : List Task) (f : Filters) (sb : String) :
    (getStats tasks).total = tasks.length ∧
    (getStats tasks).completed = (tasks.countP fun t => t.status == "completed") ∧
    (getStats tasks).inProgress = (getStats tasks).total - (getStats tasks).completed ∧
    (getStats tasks).completionRate
      = (if (getStats tasks).total = 0 then 0
         else (200 * (getStats tasks).completed + (getStats tasks).total)
              / (2 * (getStats tasks).total)) ∧
    getStats [] = { total := 0, inProgress := 0, completed := 0, completionRate := 0 } ∧
    getFilteredTasks { tasks := [], filters := f, sortBy := sb } = [] := by
  have hfold := statsStep_foldl tasks { total := 0, inProgress := 0, completed := 0 }
  refine ⟨?_, ?_, ?_, ?_, by decide, ?_⟩
  · simp only [getStats]
    rw [hfold]
    simp
  · simp only [getStats]
    rw [hfold]
    simp
  · simp only [getStats]
    rw [hfold, countP_not_completed]
    simp only [Nat.zero_add]
  · simp only [getStats]
    rw [hfold]
    simp only [Nat.zero_add]
    rcases Nat.eq_zero_or_pos (tasks.length) with h | h
    · simp [h]
    · simp [h, Nat.pos_iff_ne_zero.mp h]
  · simp [getFilteredTasks, jsSortBy]

section SortModel

variable {α : Type} {le : α → α → Bool} {R : α → α → Prop}

theorem pairwiseR_merge
    (htrans : ∀ a b c, R a b → R b c → R a c)
    (hincl : ∀ a b, le a b = true → R a b)
    (hflip : ∀ a b, le a b = false → R b a) :
    ∀ l₁ l₂ : List α, l₁.Pairwise R → l₂.Pairwise R →
      (List.merge l₁ l₂ le).Pairwise R
  | [], l₂, _, h₂ => by simpa using h₂
  | l₁, [], h₁, _ => by simpa using h₁
  | x :: l₁, y :: l₂, h₁, h₂ => by
    rw [List.cons_merge_cons]
    by_cases h : le x y = true
    · simp only [h, if_true]
      refine List.Pairwise.cons ?_
        (pairwiseR_merge htrans hincl hflip l₁ (y :: l₂) h₁.tail h₂)
      intro z hz
      rcases List.mem_merge.1 hz with hz | hz
      · exact List.rel_of_pairwise_cons h₁ hz
      · rcases List.mem_cons.1 hz with rfl | hz
        · exact hincl _ _ h
        · exact htrans _ _ _ (hincl _ _ h) (List.rel_of_pairwise_cons h₂ hz)
    · have h' : le x y = false := by simpa using h
      simp only [h', Bool.false_eq_true, if_false]
      refine List.Pairwise.cons ?_
        (pairwiseR_merge htrans hincl hflip (x :: l₁) l₂ h₁ h₂.tail)
      intro z hz
      rcases List.mem_merge.1 hz with hz | hz
      · rcases List.mem_cons.1 hz with rfl | hz
        · exact hflip _ _ h'
        · exact htrans _ _ _ (hflip _ _ h') (List.rel_of_pairwise_cons h₁ hz)
      · exact List.rel_of_pairwise_cons h₂ hz
termination_by l₁ l₂ => l₁.length + l₂.length

theorem pairwiseR_mergeSort
    (htrans : ∀ a b c, R a b → R b c → R a c)
    (hincl : ∀ a b, le a b = true → R a b)
    (hflip : ∀ a b, le a b = false → R b a) :
    ∀ l : List α, (List.mergeSort l le).Pairwise R
  | [] => by simp
  | [a] => by simp
  | a :: b :: xs => by
    have hl1 : (List.splitInTwo ⟨a :: b :: xs, rfl⟩).1.1.length < xs.length + 1 + 1 := by
      simp [List.splitInTwo_fst]; omega
    have hl2 : (List.splitInTwo ⟨a :: b :: xs, rfl⟩).2.1.length < xs.length + 1 + 1 := by
      simp [List.splitInTwo_snd]; omega
    rw [List.mergeSort]
    exact pairwiseR_merge htrans hincl hflip _ _
      (pairwiseR_mergeSort htrans hincl hflip _)
      (pairwiseR_mergeSort htrans hincl hflip _)
termination_by l => l.length

theorem mergeSort_pair (le : α → α → Bool) (a b : α) :
    List.mergeSort [a, b] le = if le a b then [a, b] else [b, a] := by
  have h1 : (List.splitInTwo ⟨[a, b], rfl⟩).1.1 = [a] := by
    simp [List.splitInTwo_fst]
  have h2 : (List.splitInTwo ⟨[a, b], rfl⟩).2.1 = [b] := by
    simp [List.splitInTwo_snd]
  rw [List.mergeSort, h1, h2, List.mergeSort_singleton, List.mergeSort_singleton,
    List.cons_merge_cons]
  by_cases h : le a b = true <;> simp [h]

end SortModel

/-- The order the date comparator is meant to establish: among records
with a due date, ascending by due date; every dated record before every
record without one; records without a due date mutually unordered. -/
def dateRel (a b : Task) : Prop :=
  match a.dueDate, b.dueDate with
  | some va, some vb => va ≤ vb
  | some _, none => True
  | none, none => True
  | none, some _ => False

theorem dateRel_trans (a b c : Task) (hab : dateRel a b) (hbc : dateRel b c) :
    dateRel a c := by
  unfold dateRel at *
  cases ha : a.dueDate <;> cases hb : b.dueDate <;> cases hc : c.dueDate <;>
    simp_all <;> omega

theorem dateLe_incl (a b : Task) (h : (decide (cmpDate a b ≤ 0)) = true) :
    dateRel a b := by
  rw [decide_eq_true_eq] at h
  unfold cmpDate at h
  unfold dateRel
  cases ha : a.dueDate <;> cases hb : b.dueDate <;> simp_all <;> omega

theorem dateLe_flip (a b : Task) (h : (decide (cmpDate a b ≤ 0)) = false) :
    dateRel b a := by
  rw [decide_eq_false_iff_not] at h
  unfold cmpDate at h
  unfold dateRel
  cases ha : a.dueDate <;> cases hb : b.dueDate <;> simp_all <;> omega

/-- C4 counterexample: the claim says the original relative order among
records with no due date is preserved.  On two records both without a
due date, the comparator answers 1 for every pair, so the stable sort
swaps them: ids come out [2, 1], not the original [1, 2]. -/
theorem c4_stability_counterexample :
    (jsSortBy cmpDate
      [ { id := 1, title := "a", description := "", priority := "low"
        , status := "pending", dueDate := none, createdAt := none, completedAt := none }
      , { id := 2, title := "b", description := "", priority := "low"
        , status := "completed", dueDate := none, createdAt := none, completedAt := none }
      ]).map Task.id = [2, 1] ∧ ([2, 1] : List Nat) ≠ [1, 2] := by
  rw [jsSortBy, mergeSort_pair]
  exact ⟨by decide, by decide⟩

/-- C4 as amended: sorting any task sequence with criterion date yields
a permutation of the sequence in which the records with a due date come
first in ascending due-date order and all records with no due date come
after them; the relative order among the records with no due date is not
preserved in general.  The date branch of the derived view computes
exactly this sort. -/
theorem c4_date_sort (tasks : List Task) :
    List.Perm (jsSortBy cmpDate tasks) tasks ∧
    (jsSortBy cmpDate tasks).Pairwise dateRel ∧
    getFilteredTasks
      { tasks := tasks
      , filters := { status := "all", priority := "all", searchTerm := "" }
      , sortBy := "date" } = jsSortBy cmpDate tasks := by
  refine ⟨List.mergeSort_perm tasks _, ?_, ?_⟩
  · exact pairwiseR_mergeSort dateRel_trans dateLe_incl dateLe_flip tasks
  · simp [getFilteredTasks]

theorem getFilteredTasks_status_perm (tasks : List Task) (st sb : String)
    (hst : (st != "all") = true) :
    List.Perm
      (getFilteredTasks
        { tasks := tasks
        , filters := { status := st, priority := "all", searchTerm := "" }
        , sortBy := sb })
      (tasks.filter fun t => t.status == st) := by
  unfold getFilteredTasks
  simp only [hst, if_true, if_pos]
  norm_num
  split
  · exact List.mergeSort_perm _ _
  · split
    · exact List.mergeSort_perm _ _
    · exact List.mergeSort_perm _ _

/-- C9: on a store whose records all have status pending or completed
and whose ids are unique, the derived views filtered by status completed
and by status pending (all other filters inactive, any sort criterion)
partition the store: the concatenation of their id sequences is a
permutation of the id sequence of the full store, and their id
sequences are disjoint. -/
theorem c9_status_partition (tasks : List Task) (sb : String)
    (h1 : ∀ t ∈ tasks, t.status = "pending" ∨ t.status = "completed")
    (h2 : (tasks.map Task.id).Nodup) :
    List.Perm
      ((getFilteredTasks
          { tasks := tasks
          , filters := { status := "completed", priority := "all", searchTerm := "" }
          , sortBy := sb }).map Task.id
        ++ (getFilteredTasks
          { tasks := tasks
          , filters := { status := "pending", priority := "all", searchTerm := "" }
          , sortBy := sb }).map Task.id)
      (tasks.map Task.id) ∧
    (getFilteredTasks
        { tasks := tasks
        , filters := { status := "completed", priority := "all", searchTerm := "" }
        , sortBy := sb }).map Task.id
      ∩ (getFilteredTasks
        { tasks := tasks
        , filters := { status := "pending", priority := "all", searchTerm := "" }
        , sortBy := sb }).map Task.id = [] := by
  have pc := getFilteredTasks_status_perm tasks "completed" sb (by decide)
  have pp := getFilteredTasks_status_perm tasks "pending" sb (by decide)
  have hfp : (tasks.filter fun t => t.status == "pending")
      = tasks.filter fun t => !(t.status == "completed") := by
    apply List.filter_congr
    intro t ht
    rcases h1 t ht with h | h <;> simp [h]
  have hperm : List.Perm
      ((tasks.filter fun t => t.status == "completed")
        ++ tasks.filter fun t => t.status == "pending") tasks := by
    rw [hfp]
    exact List.filter_append_perm _ tasks
  have hmain : List.Perm
      ((getFilteredTasks
          { tasks := tasks
          , filters := { status := "completed", priority := "all", searchTerm := "" }
          , sortBy := sb }).map Task.id
        ++ (getFilteredTasks
          { tasks := tasks
          , filters := { status := "pending", priority := "all", searchTerm := "" }
          , sortBy := sb }).map Task.id)
      (tasks.map Task.id) := by
    have hjoin := hperm.map Task.id
    rw [List.map_append] at hjoin
    exact ((pc.map Task.id).append (pp.map Task.id)).trans hjoin
  refine ⟨hmain, ?_⟩
  have hnodup := (hmain.nodup_iff).2 h2
  rw [List.nodup_append] at hnodup
  exact List.inter_eq_nil_iff_disjoint.2 hnodup.2.2

/-- Witness for C9 on the sample store with the date sort criterion. -/
theorem c9_status_partition_witness :
    (∀ t ∈ getSampleTasks, t.status = "pending" ∨ t.status = "completed") ∧
    (getSampleTasks.map Task.id).Nodup ∧
    (List.Perm
      ((getFilteredTasks
          { tasks := getSampleTasks
          , filters := { status := "completed", priority := "all", searchTerm := "" }
          , sortBy := "date" }).map Task.id
        ++ (getFilteredTasks
          { tasks := getSampleTasks
          , filters := { status := "pending", priority := "all", searchTerm := "" }
          , sortBy := "date" }).map Task.id)
      (getSampleTasks.map Task.id) ∧
    (getFilteredTasks
        { tasks := getSampleTasks
        , filters := { status := "completed", priority := "all", searchTerm := "" }
        , sortBy := "date" }).map Task.id
      ∩ (getFilteredTasks
        { tasks := getSampleTasks
        , filters := { status := "pending", priority := "all", searchTerm := "" }
        , sortBy := "date" }).map Task.id = []) :=
  ⟨by decide, by decide, c9_status_partition getSampleTasks "date" (by decide) (by decide)⟩

end TaskMaster
